import Mathlib

/-!
# Verification of `blobsort` (src/BlobSort.cpp, src/BlobSort.h, src/main.cpp)

A shallow embedding of the external 32-bit blob sorter in `ring::SortBlob32`:
the blocking memory pool (`SimpleBlockingMemoryPool`), the recursive
map/reduce task splitting (`Blob32Sorter::MapReduceChunks` /
`MapReduceOrCreateSortedChunks`), the leaf sorter
(`Blob32Sorter::CreateSortedChunk`), the two-way run merge
(`Blob32Sorter::MergeChunks`, built on `std::merge` over
`std::istream_iterator<Uint32Value>`), and the construction / teardown flow of
`Blob32Sorter` and `SortBlob32`.

Files are modelled as lists of bytes (`Nat`, one entry per byte); 32-bit
values are the little-endian composition of four consecutive bytes, matching
the `reinterpret_cast<uint32_t*>` view of the buffer on a little-endian
machine.  Sizes and offsets are in bytes, exactly as in the source.
-/

namespace BlobSort

/-- Error kinds thrown by the program: `SortException` with the message that
classifies it.  `configError` is the `"File size is not a multiple of 4Gb"`
throw in the `Blob32Sorter` constructor; `ioError` covers the read/write/merge
failures. -/
inductive SortError where
  | configError
  | ioError
  deriving DecidableEq

/-! ## Two-way run merge (`Blob32Sorter::MergeChunks`)

`MergeChunks` calls `std::merge(leftIt, eos, rightIt, eos, outIt)` with
`Uint32Value::operator<` (unsigned 32-bit comparison).  `std::merge` copies
from the right range only when `*right < *left`; on a tie (neither strictly
smaller) it copies from the left range first. -/

/-- The element-level semantics of `std::merge` as used in
`Blob32Sorter::MergeChunks`: take the right head only when it is strictly
smaller than the left head, otherwise (including ties) take the left head. -/
def mergeRuns : List Nat → List Nat → List Nat
  | [], ys => ys
  | x :: xs, [] => x :: xs
  | x :: xs, y :: ys =>
    if y < x then y :: mergeRuns (x :: xs) ys
    else x :: mergeRuns xs (y :: ys)
  termination_by xs ys => xs.length + ys.length

/-! ## Task splitting (`Blob32Sorter::MapReduceChunks` /
`MapReduceOrCreateSortedChunks`)

`MapReduceOrCreateSortedChunks(offset, size)` recurses through
`MapReduceChunks` while `size > m_memoryChunkSize` and otherwise sorts one
in-memory leaf.  `MapReduceChunks` computes `halfSize = size / 2` and starts
both children with size `halfSize` (left at `offset`, right at
`offset + halfSize`). -/

/-- A sub-problem of the recursion: a byte range `[offset, offset + size)` of
the input file. -/
structure SortTask where
  offset : Nat
  size : Nat
  deriving DecidableEq

/-- All tasks (the node itself plus every descendant) produced by
`MapReduceOrCreateSortedChunks(offset, size)` when the in-memory chunk
capacity is `cap` (`m_memoryChunkSize` in bytes).  Splitting follows
`MapReduceChunks` exactly: both children have size `size / 2`. -/
def tasks (cap : Nat) (offset size : Nat) : List SortTask :=
  ⟨offset, size⟩ ::
    (if _h : cap < size then
      tasks cap offset (size / 2) ++ tasks cap (offset + size / 2) (size / 2)
    else [])
  termination_by size
  decreasing_by
    all_goals exact Nat.div_lt_self (Nat.lt_of_le_of_lt (Nat.zero_le cap) _h) (by omega)

/-- A task is a leaf (handled by `CreateSortedChunk`) when its size does not
exceed the chunk capacity. -/
def isLeaf (cap : Nat) (t : SortTask) : Prop := t.size ≤ cap

instance (cap : Nat) (t : SortTask) : Decidable (isLeaf cap t) := by
  unfold isLeaf; infer_instance

/-! ## Bytes and 32-bit values

`Uint32Value`'s stream operators read and write `sizeof(uint32_t)` = 4 raw
bytes; the in-memory sort reinterprets the byte buffer as `uint32_t[]`.  We
fix little-endian byte order. -/

/-- Read 32-bit values from a byte stream the way
`std::istream_iterator<Uint32Value>` does: each read consumes 4 bytes; a read
that finds fewer than 4 remaining bytes fails (failbit) and ends the
stream. -/
def bytesToWords : List Nat → List Nat
  | b0 :: b1 :: b2 :: b3 :: rest =>
    (b0 % 256 + 256 * (b1 % 256) + 65536 * (b2 % 256) + 16777216 * (b3 % 256))
      :: bytesToWords rest
  | _ => []

/-- Serialize one 32-bit value back to its 4 little-endian bytes, as
`operator<<(std::ostream&, const Uint32Value&)` writes them. -/
def wordToBytes (w : Nat) : List Nat :=
  [w % 256, w / 256 % 256, w / 65536 % 256, w / 16777216 % 256]

/-- Serialize a sequence of 32-bit values to a byte stream. -/
def wordsToBytes (ws : List Nat) : List Nat :=
  (ws.map wordToBytes).flatten

/-- Insert into a sorted list, keeping ascending order. -/
def insertSorted (x : Nat) : List Nat → List Nat
  | [] => [x]
  | y :: ys => if x ≤ y then x :: y :: ys else y :: insertSorted x ys

/-- The in-memory leaf sort.  `CreateSortedChunk` calls `std::sort` on the
`uint32_t` view of the chunk; `std::sort` is specified only up to "ascending
sorted permutation", which insertion sort realizes. -/
def sortWords (l : List Nat) : List Nat := l.foldr insertSorted []

/-- The byte-level effect of `CreateSortedChunk`'s in-place sort: the
complete 4-byte words of the buffer are sorted and re-serialized.  When the
buffer length is not a multiple of 4 the C++ computes a misaligned `end`
pointer (`chunk + size`) for the `uint32_t` range — undefined behavior; the
model adopts the pointer-difference semantics (the `size / 4` complete words
are sorted, the trailing `size mod 4` bytes stay in place). -/
def sortChunkBytes (bytes : List Nat) : List Nat :=
  wordsToBytes (sortWords (bytesToWords bytes)) ++
    bytes.drop (4 * (bytes.length / 4))

/-! ## File system model

Paths that matter to the sorter: the input file, the caller-supplied output
file, and the scratch run files `m_tempDirPath / "%08x:%08x" (offset, size)`
produced by `CreateChunkFileName` — distinct `(offset, size)` pairs give
distinct paths. -/

/-- The paths `Blob32Sorter` touches. -/
inductive FPath where
  | input
  | output
  | scratch (offset size : Nat)
  deriving DecidableEq

/-- A file system: an association list from paths to byte contents. -/
def FS : Type := List (FPath × List Nat)

/-- Contents of a file, if it exists. -/
def getFile : FS → FPath → Option (List Nat)
  | [], _ => none
  | e :: fs, p => if e.1 = p then some e.2 else getFile fs p

/-- Delete a file (`fs::remove`; called with an `error_code`, so a failure to
delete is ignored). -/
def removeFile : FS → FPath → FS
  | [], _ => []
  | e :: fs, p => if e.1 = p then removeFile fs p else e :: removeFile fs p

/-- Create or overwrite a file (`std::ofstream` truncates). -/
def setFile (fs : FS) (p : FPath) (d : List Nat) : FS :=
  (p, d) :: removeFile fs p

/-! ## The recursive sorter (`CreateSortedChunk`, `MergeChunks`,
`MapReduceChunks`, `MapReduceOrCreateSortedChunks`, `Sort`)

The two `std::async` children of `MapReduceChunks` write to disjoint run-file
paths, so running them in sequence on the threaded file-system state is a
faithful linearization.  Both children always run to completion (the code
calls `wait()` on both before `get()`); the left child's exception is
re-raised first. -/

/-- Embeds `Blob32Sorter::CreateSortedChunk`: acquire a buffer (always eventually
succeeds), read `size` bytes at `offset` (`ReadChunk` throws if fewer are
available), sort the buffer's `uint32_t` view, and write it to `fileName` if
one was supplied, else to `CreateChunkFileName(offset, size)`. -/
def createSortedChunk (input : List Nat) (fs : FS) (offset size : Nat)
    (fileName : Option FPath) : Except SortError FPath × FS :=
  if offset + size ≤ input.length then
    let name := fileName.getD (FPath.scratch offset size)
    (.ok name, setFile fs name (sortChunkBytes ((input.drop offset).take size)))
  else (.error .ioError, fs)

/-- Embeds `Blob32Sorter::MapReduceOrCreateSortedChunks` (and, in the
`cap < size` branch, `MapReduceChunks`): split into two children of
`size / 2` bytes, run both, merge their run files into
`CreateChunkFileName(offset, size)` — or `m_outFilePath` when
`size == m_inFileSize` — and best-effort delete both child files.
`MapReduceChunks` ignores its `fileName` argument.  A failed child's
error is re-raised at the join, the left one first. -/
def mapReduceOrCreate (cap inFileSize : Nat) (input : List Nat) (fs : FS)
    (offset size : Nat) (fileName : Option FPath) : Except SortError FPath × FS :=
  if _h : cap < size then
    let halfSize := size / 2
    match mapReduceOrCreate cap inFileSize input fs offset halfSize none with
    | (lres, fs1) =>
      match mapReduceOrCreate cap inFileSize input fs1 (offset + halfSize) halfSize none with
      | (rres, fs2) =>
        match lres, rres with
        | .ok leftName, .ok rightName =>
          let mergedName :=
            if size < inFileSize then FPath.scratch offset size else FPath.output
          let lw := bytesToWords ((getFile fs2 leftName).getD [])
          let rw := bytesToWords ((getFile fs2 rightName).getD [])
          let fs3 := setFile fs2 mergedName (wordsToBytes (mergeRuns lw rw))
          (.ok mergedName, removeFile (removeFile fs3 leftName) rightName)
        | .error e, _ => (.error e, fs2)
        | _, .error e => (.error e, fs2)
  else createSortedChunk input fs offset size fileName
  termination_by size
  decreasing_by
    all_goals exact Nat.div_lt_self (Nat.lt_of_le_of_lt (Nat.zero_le cap) _h) (by omega)

/-- Embeds `SortBlob32` / `Blob32Sorter::Sort`: the constructor validates
`L mod 4 == 0` (throwing `SortException` otherwise), then `Sort()` runs
`MapReduceOrCreateSortedChunks(0, m_inFileSize, m_outFilePath)`.  `cap` is
`m_memoryChunkSize`; the input file's byte contents are `input`. -/
def sortBlob (cap : Nat) (input : List Nat) (fs : FS) :
    Except SortError FPath × FS :=
  if input.length % 4 ≠ 0 then (.error .configError, fs)
  else mapReduceOrCreate cap input.length input fs 0 input.length (some .output)

/-- The returned run-file path is never the input path: it is the supplied
`fileName`, a scratch run file, or the output path. -/
def okNotInput : Except SortError FPath → Prop
  | .ok p => p ≠ FPath.input
  | .error _ => True

/-! ## Construction order of `Blob32Sorter`

C++ runs the member initializers in declaration order before the constructor
body: `m_inFilePath`, `m_outFilePath`, `m_inFileSize = fs::file_size(...)`,
`m_tempDirPath = CreateUniqueTempDirectory(...)`, `m_memoryChunkSize`,
`m_memPool`.  Only then does the body check
`m_inFileSize % FILE_SIZE_MULTIPLIER` and throw `SortException`. -/

/-- Observable steps of the `Blob32Sorter` constructor, in order. -/
inductive CtorEvent where
  | readFileSize
  | createScratchDir
  | allocPool
  | throwConfigError
  deriving DecidableEq

/-- The ordered event trace of `Blob32Sorter::Blob32Sorter` on an input file
of `L` bytes (fault-free file system): initializer list first, then the body's
`L mod 4` validation. -/
def ctorTrace (L : Nat) : List CtorEvent :=
  [CtorEvent.readFileSize, CtorEvent.createScratchDir, CtorEvent.allocPool] ++
    (if L % 4 ≠ 0 then [CtorEvent.throwConfigError] else [])

/-- Index of the first occurrence of an event in a trace (trace length if
absent). -/
def eventIndex (e : CtorEvent) : List CtorEvent → Nat
  | [] => 0
  | e2 :: rest => if e2 = e then 0 else eventIndex e rest + 1

/-! ## Teardown flow of `SortBlob32`

`SortBlob32` runs `Blob32Sorter(in, out).Sort()` in a `try` block.  The
temporary's destructor runs once the object is fully constructed — also
during unwinding when `Sort()` throws — and removes the scratch directory
with the `std::error_code` overloads of `fs::exists` / `fs::remove_all`,
which never throw; `~Blob32Sorter` is `noexcept`.  If the constructor itself
throws (the `L mod 4` check), the destructor does not run. -/

/-- One `SortBlob32(in, out)` call, given the outcome the recursive sort
phase would produce (`Sort()` is the only code run between construction and
destruction, so its outcome is a parameter: any error at any recursion depth
arrives here as `Except.error e`).  Returns the caller-visible result and
whether the scratch directory was removed before returning. -/
def sortBlob32Flow (L : Nat) (sortOutcome : Except SortError Unit) :
    Except SortError Unit × Bool :=
  if L % 4 ≠ 0 then
    -- constructor throws after creating the scratch dir; destructor not run
    (.error .configError, false)
  else
    -- destructor runs on every exit path of Sort(), swallowing cleanup
    -- errors, so the sort outcome passes through unchanged
    (sortOutcome, true)

/-! ## Stream-level run merge (`Blob32Sorter::MergeChunks` with failures)

`MergeChunks` opens both inputs and the output, merges via stream iterators,
and then throws only when `leftStrm.bad() || rightStrm.bad() ||
resultStrm.bad()`.  An `ifstream` that failed to open, or a read that hits
end-of-file partway through a value, sets `failbit` (the iterator just
becomes end-of-stream) — not `badbit`.  `badbit` is set on loss of integrity
of the underlying stream buffer (a device-level I/O failure), modelled here
as injected flags. -/

/-- The environment of one `MergeChunks` call: the two run files' bytes,
whether each `ifstream` opened successfully, and whether a device-level
failure (badbit) hits the left input, right input, or output stream. -/
structure MergeEnv where
  leftBytes : List Nat
  rightBytes : List Nat
  leftOpenOk : Bool
  rightOpenOk : Bool
  leftBad : Bool
  rightBad : Bool
  outBad : Bool
  deriving DecidableEq

/-- Embeds `Blob32Sorter::MergeChunks` at stream level: a side that failed to open
contributes no values (its iterator equals end-of-stream from the start); a
short read ends a side (`bytesToWords` stops); the exception is thrown iff
some stream's badbit is set. -/
def mergeChunksStream (env : MergeEnv) : Except SortError (List Nat) :=
  let leftVals := if env.leftOpenOk then bytesToWords env.leftBytes else []
  let rightVals := if env.rightOpenOk then bytesToWords env.rightBytes else []
  if env.leftBad || env.rightBad || env.outBad then .error .ioError
  else .ok (mergeRuns leftVals rightVals)

/-! ## The blocking memory pool (`SimpleBlockingMemoryPool`)

All mutation of `m_queue` is under `m_mutex`; `Acquire` waits on
`m_queueCond` until `!m_queue.empty()`, pops the front, and returns it in a
`Chunk`; `Release` pushes and notifies.  We model the interleaved executions
of concurrent callers as a labelled transition system whose state is the free
queue plus the multiset of outstanding (leased) buffers; each atomic
mutex-protected section is one transition.  Buffers are identified by their
index in `m_buff`. -/

/-- Pool state: the free queue (front first, as `std::queue`) and the leased
buffers currently outstanding. -/
structure PoolState where
  free : List Nat
  held : List Nat
  deriving DecidableEq

/-- Labels: a caller's `Acquire` returning buffer `b`, or the `Chunk`
destructor's `Release(b)`. -/
inductive PoolLabel where
  | acquire (b : Nat)
  | release (b : Nat)

/-- One atomic step of the pool.  `acquire` is the critical section of
`Acquire`: it fires only when the queue is non-empty (the condition-variable
predicate) and pops the front.  `release` is `Release` called from a lease
destructor: the RAII discipline releases exactly the buffers currently held
(each `Chunk` is destroyed once; `Chunk` moves are absent in this program's
executions, see the `MChunk` model below for what a move would do). -/
inductive PoolStep : PoolState → PoolLabel → PoolState → Prop where
  | acquire (b : Nat) (rest held : List Nat) :
      PoolStep ⟨b :: rest, held⟩ (.acquire b) ⟨rest, b :: held⟩
  | release (free held : List Nat) (b : Nat) (hb : b ∈ held) :
      PoolStep ⟨free, held⟩ (.release b) ⟨free ++ [b], held.erase b⟩

/-- States reachable from the freshly constructed pool of `count` buffers
(the constructor pushes `&m_buff[i * size]` for `i = 0 .. count-1`). -/
inductive PoolReach (count : Nat) : PoolState → Prop where
  | init : PoolReach count ⟨List.range count, []⟩
  | step {s l s2} : PoolReach count s → PoolStep s l s2 → PoolReach count s2

/-! ## The `Chunk` lease with move semantics (`SimpleBlockingMemoryPool::Chunk`)

`Chunk`'s fields are `m_pool` and `m_buff = nullptr`.  The move constructor
`Chunk(Chunk&&)` swaps `m_buff` with the source, leaving the source's
`m_buff` null; the destructor unconditionally calls `m_pool.Release(m_buff)`.
`Release` pushes its argument — null or not — onto `m_queue`.  Buffers are
`Option Nat`: `none` is a null `char*`. -/

/-- A `Chunk` lease: its buffer pointer (null = `none`). -/
structure MChunk where
  buff : Option Nat
  deriving DecidableEq

/-- The pool's free queue, which after null releases can contain null
entries. -/
structure MPool where
  free : List (Option Nat)
  deriving DecidableEq

/-- The critical section of `Acquire`: pops the front of the queue once
non-empty (`none` result = the caller still blocks). -/
def mpoolAcquire (p : MPool) : Option (MChunk × MPool) :=
  match p.free with
  | [] => none
  | b :: rest => some (⟨b⟩, ⟨rest⟩)

/-- Embeds `Release(chunk)`: pushes the pointer — null or not — onto the queue. -/
def mpoolRelease (p : MPool) (b : Option Nat) : MPool :=
  ⟨p.free ++ [b]⟩

/-- Embeds `Chunk(Chunk&&)`: the new chunk's `m_buff` starts null and is
swapped with `other.m_buff`; returns (moved-to, moved-from). -/
def mchunkMove (c : MChunk) : MChunk × MChunk :=
  (⟨c.buff⟩, ⟨none⟩)

/-- Embeds `~Chunk()`: unconditionally `m_pool.Release(m_buff)`. -/
def mchunkDestruct (p : MPool) (c : MChunk) : MPool :=
  mpoolRelease p c.buff

/-! ## Properties of the embedding -/

theorem mergeRuns_nil_left (ys : List Nat) : mergeRuns [] ys = ys := by
  cases ys <;> simp [mergeRuns]

theorem mergeRuns_nil_right (xs : List Nat) : mergeRuns xs [] = xs := by
  cases xs <;> simp [mergeRuns]

theorem mergeRuns_cons_cons (x y : Nat) (xs ys : List Nat) :
    mergeRuns (x :: xs) (y :: ys) =
      if y < x then y :: mergeRuns (x :: xs) ys
      else x :: mergeRuns xs (y :: ys) := by
  simp [mergeRuns]

/-- The merge output is a permutation of the concatenation of its inputs. -/
theorem mergeRuns_perm (xs ys : List Nat) : List.Perm (mergeRuns xs ys) (xs ++ ys) := by
  induction xs generalizing ys with
  | nil => simp [mergeRuns_nil_left]
  | cons x xs ihx =>
    induction ys with
    | nil => simp [mergeRuns_nil_right]
    | cons y ys ihy =>
      rw [mergeRuns_cons_cons]
      by_cases h : y < x
      · rw [if_pos h]
        refine List.Perm.trans (List.Perm.cons y ihy) ?_
        exact (List.perm_middle).symm
      · rw [if_neg h]
        exact List.Perm.cons x (ihx (y :: ys))

/-- The merge output length is the sum of the input lengths. -/
theorem mergeRuns_length (xs ys : List Nat) :
    (mergeRuns xs ys).length = xs.length + ys.length :=
  ((mergeRuns_perm xs ys).length_eq).trans (List.length_append xs ys)

theorem mergeRuns_sorted {xs ys : List Nat}
    (hx : List.Sorted (· ≤ ·) xs) (hy : List.Sorted (· ≤ ·) ys) :
    List.Sorted (· ≤ ·) (mergeRuns xs ys) := by
  induction xs generalizing ys with
  | nil => simpa [mergeRuns_nil_left] using hy
  | cons x xs ihx =>
    induction ys with
    | nil => simpa [mergeRuns_nil_right] using hx
    | cons y ys ihy =>
      rw [mergeRuns_cons_cons]
      rcases List.sorted_cons.mp hx with ⟨hxall, hxs⟩
      rcases List.sorted_cons.mp hy with ⟨hyall, hys⟩
      by_cases h : y < x
      · rw [if_pos h]
        refine List.sorted_cons.mpr ⟨?_, ihy hys⟩
        intro b hb
        have hb' := (mergeRuns_perm (x :: xs) ys).mem_iff.mp hb
        rcases List.mem_append.mp hb' with hbl | hbr
        · rcases List.mem_cons.mp hbl with hbx | hbxs
          · exact hbx ▸ Nat.le_of_lt h
          · exact Nat.le_trans (Nat.le_of_lt h) (hxall b hbxs)
        · exact hyall b hbr
      · rw [if_neg h]
        have hxy : x ≤ y := Nat.le_of_not_lt h
        refine List.sorted_cons.mpr ⟨?_, ihx hxs (List.sorted_cons.mpr ⟨hyall, hys⟩)⟩
        intro b hb
        have hb' := (mergeRuns_perm xs (y :: ys)).mem_iff.mp hb
        rcases List.mem_append.mp hb' with hbl | hbr
        · exact hxall b hbl
        · rcases List.mem_cons.mp hbr with hby | hbys
          · exact hby ▸ hxy
          · exact Nat.le_trans hxy (hyall b hbys)

theorem getFile_removeFile_ne (fs : FS) (p q : FPath) (h : p ≠ q) :
    getFile (removeFile fs p) q = getFile fs q := by
  induction fs with
  | nil => rfl
  | cons e fs ih =>
    by_cases he : e.1 = p
    · have hq : ¬ (e.1 = q) := fun hq => h (he ▸ hq)
      rw [removeFile, if_pos he, getFile, if_neg hq, ih]
    · by_cases hq : e.1 = q
      · rw [removeFile, if_neg he, getFile, if_pos hq, getFile, if_pos hq]
      · rw [removeFile, if_neg he, getFile, if_neg hq, getFile, if_neg hq, ih]

theorem getFile_setFile_ne (fs : FS) (p q : FPath) (d : List Nat) (h : p ≠ q) :
    getFile (setFile fs p d) q = getFile fs q := by
  rw [setFile, getFile, if_neg h, getFile_removeFile_ne fs p q h]

theorem getFile_setFile_self (fs : FS) (p : FPath) (d : List Nat) :
    getFile (setFile fs p d) p = some d := by
  rw [setFile, getFile, if_pos rfl]

/-- Any result path returned by the recursion is the supplied `fileName`, a
scratch run file, or the output path — never the input path — and the input
file's contents are untouched: every write of the recursion goes to a scratch
path, to `fileName`, or to the output path. -/
theorem mapReduceOrCreate_frame (cap inFileSize : Nat) (input : List Nat) :
    ∀ size offset fs fileName, fileName ≠ some FPath.input →
      okNotInput (mapReduceOrCreate cap inFileSize input fs offset size fileName).1 ∧
      getFile (mapReduceOrCreate cap inFileSize input fs offset size fileName).2
          FPath.input
        = getFile fs FPath.input := by
  intro size
  induction size using Nat.strong_induction_on with
  | _ size ih =>
    intro offset fs fileName hname
    rw [mapReduceOrCreate]
    by_cases h : cap < size
    · rw [dif_pos h]
      have hhalf : size / 2 < size :=
        Nat.div_lt_self (Nat.lt_of_le_of_lt (Nat.zero_le cap) h) (by omega)
      have ihl := ih (size / 2) hhalf offset fs none (by simp)
      rcases hl : mapReduceOrCreate cap inFileSize input fs offset (size / 2) none
        with ⟨lres, fs1⟩
      rw [hl] at ihl
      have ihr := ih (size / 2) hhalf (offset + size / 2) fs1 none (by simp)
      rcases hr : mapReduceOrCreate cap inFileSize input fs1 (offset + size / 2)
          (size / 2) none with ⟨rres, fs2⟩
      rw [hr] at ihr
      dsimp only at ihl ihr ⊢
      rw [hl]
      dsimp only
      rw [hr]
      dsimp only
      obtain ⟨lok, lframe⟩ := ihl
      obtain ⟨rok, rframe⟩ := ihr
      cases lres with
      | error e => cases rres <;> exact ⟨trivial, rframe.trans lframe⟩
      | ok leftName =>
        cases rres with
        | error e => exact ⟨trivial, rframe.trans lframe⟩
        | ok rightName =>
          have hleft : leftName ≠ FPath.input := lok
          have hright : rightName ≠ FPath.input := rok
          have hmerged :
              (if size < inFileSize then FPath.scratch offset size
               else FPath.output) ≠ FPath.input := by
            by_cases hs : size < inFileSize <;> simp [hs]
          refine ⟨hmerged, ?_⟩
          dsimp only
          rw [getFile_removeFile_ne _ _ _ hright,
            getFile_removeFile_ne _ _ _ hleft,
            getFile_setFile_ne _ _ _ _ hmerged, rframe, lframe]
    · rw [dif_neg h]
      unfold createSortedChunk
      by_cases hread : offset + size ≤ input.length
      · rw [if_pos hread]
        have hname2 : fileName.getD (FPath.scratch offset size) ≠ FPath.input := by
          cases fileName with
          | none => simp
          | some p =>
            intro hc
            exact hname (by simpa using hc)
        exact ⟨hname2, getFile_setFile_ne _ _ _ _ hname2⟩
      · rw [if_neg hread]
        exact ⟨trivial, rfl⟩

/-! ## Helper lemmas -/

/-- Concrete task tree with `m_memoryChunkSize = 2^25` (the value
`MAX_ALLOCATED_MEMORY_SIZE / (hardware_concurrency * 2)` takes on a machine
with 4 hardware threads) and an input of `2^25 + 4` bytes: one split into two
leaves of `16777218` bytes each. -/
theorem tasks_33554436 :
    tasks 33554432 0 33554436 =
      [⟨0, 33554436⟩, ⟨0, 16777218⟩, ⟨16777218, 16777218⟩] := by
  rw [tasks, dif_pos (by norm_num)]
  norm_num
  rw [tasks, dif_neg (by norm_num), tasks, dif_neg (by norm_num)]
  rfl

/-- Concrete task tree with `m_memoryChunkSize = 2^26` (a machine with 2
hardware threads) and an input of `2^26 + 4` bytes: one split into two leaves
of `33554434` bytes each. -/
theorem tasks_67108868 :
    tasks 67108864 0 67108868 =
      [⟨0, 67108868⟩, ⟨0, 33554434⟩, ⟨33554434, 33554434⟩] := by
  rw [tasks, dif_pos (by norm_num)]
  norm_num
  rw [tasks, dif_neg (by norm_num), tasks, dif_neg (by norm_num)]
  rfl

/-- Pool invariant: from the initial state, the free queue and the
outstanding leases always form a permutation of the constructed buffers —
no buffer is lost or duplicated. -/
theorem poolReach_perm {count : Nat} {s : PoolState} (h : PoolReach count s) :
    List.Perm (s.free ++ s.held) (List.range count) := by
  induction h with
  | init => simp
  | step hprev hstep ih =>
    cases hstep with
    | acquire b rest held =>
      exact List.Perm.trans List.perm_middle ih
    | release free held b hb =>
      refine List.Perm.trans ?_ ih
      rw [List.append_assoc]
      exact List.Perm.append_left free
        (List.Perm.trans (List.singleton_append ▸ List.Perm.refl _)
          (List.perm_cons_erase hb).symm)

/-! ## Claims -/

/-- Claim C1: the claimed property — for every input whose byte length `L` is a
multiple of 4, the output is the ascending-sorted permutation of the input —
cannot hold on the code: with `m_memoryChunkSize = 2^26` (hardware
concurrency 2) and an input of `L = 2^26 + 4` bytes (a multiple of 4), the
split produces two leaf tasks of `33554434` bytes each, a size that is not a
multiple of 4, so `CreateSortedChunk` sorts a `uint32_t` range whose end
pointer `chunk + size` is misaligned (undefined behavior, and under the
pointer-difference semantics the trailing two bytes of each half are dropped
by the later word-wise merge). -/
theorem c1_split_reaches_misaligned_leaf :
    SortTask.mk 0 33554434 ∈ tasks 67108864 0 67108868 ∧
    isLeaf 67108864 ⟨0, 33554434⟩ ∧
    33554434 % 4 = 2 ∧ 67108868 % 4 = 0 := by
  refine ⟨?_, by decide, by decide, by decide⟩
  rw [tasks_67108868]
  decide

/-- Claim C2 counterexample: for the invalid length `L = 6`, the constructor's
event trace creates the scratch directory strictly before the
`L mod 4` validation throws, so the validation does not happen before the
scratch directory is created. -/
theorem c2_counterexample :
    ctorTrace 6 =
      [CtorEvent.readFileSize, CtorEvent.createScratchDir,
        CtorEvent.allocPool, CtorEvent.throwConfigError] ∧
    eventIndex CtorEvent.createScratchDir (ctorTrace 6)
      < eventIndex CtorEvent.throwConfigError (ctorTrace 6) := by
  decide

/-- Claim C2 (amended): for every input length that is not a multiple of 4,
`SortBlob32` raises the configuration error (`SortException`), but the
scratch directory has already been created when the validation runs: the
member-initializer list (which calls `CreateUniqueTempDirectory`) executes
before the constructor body's check. -/
theorem c2_config_error_after_scratch (L : Nat) (h : L % 4 ≠ 0) :
    CtorEvent.throwConfigError ∈ ctorTrace L ∧
    eventIndex CtorEvent.createScratchDir (ctorTrace L)
      < eventIndex CtorEvent.throwConfigError (ctorTrace L) := by
  have htrace : ctorTrace L =
      [CtorEvent.readFileSize, CtorEvent.createScratchDir,
        CtorEvent.allocPool, CtorEvent.throwConfigError] := by
    unfold ctorTrace
    rw [if_pos h]
    rfl
  rw [htrace]
  decide

/-- Claim C2 witness: the amended theorem applied at `L = 7`. -/
theorem c2_config_error_after_scratch_witness :
    (7 : Nat) % 4 ≠ 0 ∧
    (CtorEvent.throwConfigError ∈ ctorTrace 7 ∧
      eventIndex CtorEvent.createScratchDir (ctorTrace 7)
        < eventIndex CtorEvent.throwConfigError (ctorTrace 7)) :=
  ⟨by decide, c2_config_error_after_scratch 7 (by decide)⟩

/-- Claim C3 counterexample: with `m_memoryChunkSize = 2^25` (hardware
concurrency 4), the root task `(0, 33554436)` — `L = 33554436` is a multiple
of 4 — is split into the task `(0, 16777218)`, whose size is not a multiple
of 4, violating the claimed `size mod 4 == 0` invariant. -/
theorem c3_counterexample :
    SortTask.mk 0 16777218 ∈ tasks 33554432 0 33554436 ∧
    ¬ (16777218 % 4 = 0) := by
  refine ⟨?_, by decide⟩
  rw [tasks_33554436]
  decide

/-- Claim C3 (amended): every task produced by the recursion satisfies the range
part of the invariant — `0 ≤ offset` (trivial over `Nat`) and
`offset + size ≤ L` — but not the divisibility part `size mod 4 == 0`, which
fails as soon as a task whose size is ≡ 4 (mod 8) exceeds the chunk
capacity and is halved. -/
theorem c3_task_range_invariant (cap L : Nat) :
    ∀ size offset, offset + size ≤ L →
      ∀ t ∈ tasks cap offset size, t.offset + t.size ≤ L := by
  intro size
  induction size using Nat.strong_induction_on with
  | _ size ih =>
    intro offset hle t ht
    rw [tasks] at ht
    rcases List.mem_cons.mp ht with rfl | ht2
    · exact hle
    · by_cases h : cap < size
      · rw [dif_pos h] at ht2
        have hhalf : size / 2 < size :=
          Nat.div_lt_self (Nat.lt_of_le_of_lt (Nat.zero_le cap) h) (by omega)
        have hsplit : size / 2 + size / 2 ≤ size := by omega
        rcases List.mem_append.mp ht2 with hl | hr
        · exact ih (size / 2) hhalf offset (by omega) t hl
        · exact ih (size / 2) hhalf (offset + size / 2) (by omega) t hr
      · rw [dif_neg h] at ht2
        exact absurd ht2 (List.not_mem_nil t)

/-- Claim C3 witness: the amended invariant applied to the concrete root task
`(0, 12)` with capacity 4 and `L = 12`; the task `(0, 6)` produced by the
split satisfies the range bound. -/
theorem c3_task_range_invariant_witness :
    (0 + 12 ≤ 12) ∧
    (∀ t ∈ tasks 4 0 12, t.offset + t.size ≤ 12) :=
  ⟨by decide, c3_task_range_invariant 4 12 12 0 (by decide)⟩

/-- Claim C4: for all ascending-sorted sequences `A` and `B` of 32-bit values, the
run merge produces exactly `sort(A ++ B)`: the output length is the sum of
the input lengths, the output is ascending-sorted, the output is the unique
sorted permutation of `A ++ B`, and on a tie between the two heads the left
head is emitted first. -/
theorem c4_merge_correct (A B : List Nat)
    (hA : List.Sorted (· ≤ ·) A) (hB : List.Sorted (· ≤ ·) B) :
    (mergeRuns A B).length = A.length + B.length ∧
    List.Sorted (· ≤ ·) (mergeRuns A B) ∧
    List.Perm (mergeRuns A B) (A ++ B) ∧
    (∀ l, List.Perm l (A ++ B) → List.Sorted (· ≤ ·) l → l = mergeRuns A B) ∧
    (∀ a A2 b B2, A = a :: A2 → B = b :: B2 → ¬ b < a →
      mergeRuns A B = a :: mergeRuns A2 B) := by
  refine ⟨mergeRuns_length A B, mergeRuns_sorted hA hB, mergeRuns_perm A B,
    ?_, ?_⟩
  · intro l hperm hsorted
    exact List.eq_of_perm_of_sorted
      (hperm.trans (mergeRuns_perm A B).symm) hsorted (mergeRuns_sorted hA hB)
  · intro a A2 b B2 hA2 hB2 hba
    subst hA2; subst hB2
    rw [mergeRuns_cons_cons, if_neg hba]

/-- Claim C4 witness: the merge theorem at `A = [2, 5]`, `B = [2, 3]`; the tie on
`2` emits the left side's value first. -/
theorem c4_merge_correct_witness :
    (mergeRuns [2, 5] [2, 3]).length = 2 + 2 ∧
    mergeRuns [2, 5] [2, 3] = 2 :: mergeRuns [5] [2, 3] := by
  have h := c4_merge_correct [2, 5] [2, 3] (by decide) (by decide)
  exact ⟨h.1, h.2.2.2.2 2 [5] 2 [3] rfl rfl (by decide)⟩

/-- Claim C5: for every failure (any error `e`) raised during the sort phase of a
valid invocation (`L mod 4 = 0`, so the `Blob32Sorter` temporary is fully
constructed and its destructor runs during unwinding), the scratch directory
is removed before the error surfaces, and the error surfaces unchanged — the
destructor uses the non-throwing `std::error_code` overloads of
`fs::exists` / `fs::remove_all`, so cleanup can never mask the failure. -/
theorem c5_cleanup_before_error_surfaces (L : Nat) (e : SortError)
    (h : L % 4 = 0) :
    sortBlob32Flow L (.error e) = (.error e, true) := by
  unfold sortBlob32Flow
  rw [if_neg (by omega)]

/-- Claim C5 witness: the cleanup theorem at `L = 4` with an I/O failure. -/
theorem c5_cleanup_before_error_surfaces_witness :
    (4 : Nat) % 4 = 0 ∧
    sortBlob32Flow 4 (.error .ioError) = (.error .ioError, true) :=
  ⟨rfl, c5_cleanup_before_error_surfaces 4 .ioError rfl⟩

/-- Claim C6 counterexample: a merge whose left run file cannot be opened — a
stream read failure — completes without error (`failbit`, not `badbit`, is
set, and `MergeChunks` only tests `bad()`), emitting just the right side's
values instead of raising an I/O error. -/
theorem c6_counterexample :
    mergeChunksStream ⟨[1, 0, 0, 0], [2, 0, 0, 0], false, true, false, false, false⟩
      = .ok [2] := by
  unfold mergeChunksStream
  simp [bytesToWords, mergeRuns_nil_left]

/-- Claim C6 (amended): `MergeChunks` raises an I/O error exactly when one of its
three streams has `badbit` set (loss of integrity of the underlying stream
buffer).  A failed open or a short read sets only `failbit`, which ends that
side's iterator silently: the merge then completes without error. -/
theorem c6_error_iff_badbit (env : MergeEnv) :
    mergeChunksStream env = .error .ioError ↔
      (env.leftBad || env.rightBad || env.outBad) = true := by
  unfold mergeChunksStream
  by_cases h : (env.leftBad || env.rightBad || env.outBad) = true
  · simp [h]
  · simp [h]

/-- Claim C7: in every state reachable by interleaved `Acquire` / `Release`
critical sections from a freshly constructed pool of `count` buffers, at most
`count` leases are outstanding; the free queue plus the outstanding leases is
a permutation of the constructed buffers (so every leased buffer is returned
exactly once — never lost, never duplicated); and an `Acquire` step can only
fire when the free queue is non-empty (the condition-variable predicate
`!m_queue.empty()`). -/
theorem c7_pool_safety (count : Nat) (s : PoolState) (h : PoolReach count s) :
    s.held.length ≤ count ∧
    List.Perm (s.free ++ s.held) (List.range count) ∧
    (∀ b s2, PoolStep s (.acquire b) s2 → s.free ≠ []) := by
  have hp := poolReach_perm h
  refine ⟨?_, hp, ?_⟩
  · have hlen := hp.length_eq
    rw [List.length_append, List.length_range] at hlen
    omega
  · intro b s2 hstep
    cases hstep
    simp

/-- Claim C7 witness: the pool-safety theorem at the state reached from a 2-buffer
pool after one `Acquire` returned buffer 0. -/
theorem c7_pool_safety_witness :
    (PoolState.mk [1] [0]).held.length ≤ 2 ∧
    List.Perm ((PoolState.mk [1] [0]).free ++ (PoolState.mk [1] [0]).held)
      (List.range 2) ∧
    (∀ b s2, PoolStep (PoolState.mk [1] [0]) (.acquire b) s2 →
      (PoolState.mk [1] [0]).free ≠ []) := by
  have hrange : List.range 2 = [0, 1] := by decide
  have h0 : PoolReach 2 ⟨[0, 1], []⟩ := by
    have h1 := @PoolReach.init 2
    rw [hrange] at h1
    exact h1
  exact c7_pool_safety 2 ⟨[1], [0]⟩ (h0.step (PoolStep.acquire 0 [1] []))

/-- Claim C8: for an existing input file of length 0 (`input = []`), the sort
writes an empty output file and reports no error, for every chunk capacity
and every starting file system. -/
theorem c8_empty_input (cap : Nat) (fs : FS) :
    (sortBlob cap [] fs).1 = .ok FPath.output ∧
    getFile (sortBlob cap [] fs).2 FPath.output = some [] := by
  unfold sortBlob
  rw [if_neg (by decide)]
  rw [mapReduceOrCreate, dif_neg (by simp)]
  unfold createSortedChunk
  rw [if_pos (by simp)]
  exact ⟨rfl, getFile_setFile_self fs FPath.output _⟩

/-- Claim C9: a moved-from `Chunk` holds a null buffer pointer; its destructor
still calls `Release` on it, pushing a null entry onto the free queue; a
subsequent `Acquire` then returns a lease whose buffer is null; and after
all destructors run, a capacity-1 pool's free queue holds 2 entries —
beyond its original capacity. -/
theorem c9_moved_from_chunk_null_release :
    mpoolAcquire ⟨[some 0]⟩ = some (⟨some 0⟩, ⟨[]⟩) ∧
    mchunkMove ⟨some 0⟩ = (⟨some 0⟩, ⟨none⟩) ∧
    mchunkDestruct ⟨[]⟩ ⟨none⟩ = ⟨[none]⟩ ∧
    mpoolAcquire ⟨[none]⟩ = some (⟨none⟩, ⟨[]⟩) ∧
    1 < (mchunkDestruct (mchunkDestruct ⟨[]⟩ ⟨none⟩) ⟨some 0⟩).free.length := by
  decide

/-- Claim C10: the input file's contents after a `SortBlob32` invocation equal its
contents before, whatever the outcome: the recursion only reads the input
path, and every write or delete goes to a scratch run file or to the output
path. -/
theorem c10_input_file_unchanged (cap : Nat) (input : List Nat) (fs : FS) :
    getFile (sortBlob cap input fs).2 FPath.input = getFile fs FPath.input := by
  unfold sortBlob
  by_cases h : input.length % 4 ≠ 0
  · rw [if_pos h]
  · rw [if_neg h]
    exact (mapReduceOrCreate_frame cap input.length input input.length 0 fs
      (some FPath.output) (by simp)).2

end BlobSort
